import Mathlib

set_option maxRecDepth 100000

/-!
Shallow embedding of the media-backend core (asset ingestion and preview
selection) from `src/main.py`, together with proofs of the specified
properties of `upload_files` (the Asset Store, `POST /api/upload`) and
`instant_edit` (the Preview Selector, `POST /api/instant-edit`).

Python strings are modelled as Lean `String` (lists of unicode code points);
`str.lower` is modelled as a code-point-wise `Char.toLower` map and
`str.endswith` as a suffix test on code points.  `uuid.uuid4().hex` calls are
modelled by an explicit list of tokens consumed in order, one per uploaded
file; freshness and distinctness of the generated tokens become explicit
hypotheses (a uuid4 hex digest is always 32 characters long).  Filesystem
writes are modelled as an append-only association list from paths to byte
contents.  `HTTPException` is modelled as an error value carrying the status
code and detail string.
-/

/-- Python `str.lower`, code point by code point (ASCII case mapping). -/
def lowerStr (s : String) : String := ⟨s.data.map Char.toLower⟩

/-- Python `str.endswith e`: `e` is a suffix of the string. -/
def endswith (s e : String) : Bool := List.isSuffixOf e.data s.data

/-- Index of the last occurrence of `c` in `cs` (accumulator form), the
analogue of Python `str.rfind` (which returns -1, here `none`, if absent). -/
def lastIdxAux (c : Char) : List Char → Nat → Option Nat → Option Nat
  | [], _, acc => acc
  | x :: xs, i, acc => lastIdxAux c xs (i + 1) (if x = c then some i else acc)

/-- Python `str.rfind c` as an `Option Nat`. -/
def rfindChar (s : String) (c : Char) : Option Nat := lastIdxAux c s.data 0 none

/-- `os.path.splitext` (posix): split off the extension at the last dot of
the last path component, unless the component consists only of leading dots
up to that position. Mirrors CPython `genericpath._splitext` with `sep = '/'`
and no `altsep`. -/
def splitext (p : String) : String × String :=
  let cs := p.data
  match rfindChar p '.' with
  | none => (p, "")
  | some dotIndex =>
    let start := match rfindChar p '/' with
      | none => 0
      | some sepIndex => sepIndex + 1
    if start ≤ dotIndex then
      if ((cs.drop start).take (dotIndex - start)).any (fun ch => ch ≠ '.') then
        (⟨cs.take dotIndex⟩, ⟨cs.drop dotIndex⟩)
      else (p, "")
    else (p, "")

/-- Python `str.rstrip "/"`: drop every trailing slash. -/
def rstripSlashes (s : String) : String :=
  ⟨(s.data.reverse.dropWhile (fun c => c = '/')).reverse⟩

/-- A value stored in a template's `preset` dict (strings and booleans occur
in the catalog). -/
inductive PresetVal where
  | str (s : String)
  | bool (b : Bool)
deriving DecidableEq, Repr

/-- The `Template` pydantic model of `src/main.py`. -/
structure Template where
  id : String
  name : String
  aspect_ratio : String
  description : String
  preset : List (String × PresetVal)
deriving DecidableEq, Repr

def reel_916_bold : Template :=
  ⟨"reel-916-bold", "Reel 9:16 • Bold", "9:16",
   "Vertical format with bold headline and punchy cuts.",
   [("font", .str "Inter ExtraBold"), ("color", .str "#3b82f6"),
    ("lower_third", .bool true)]⟩

def corporate_169_clean : Template :=
  ⟨"corporate-169-clean", "Corporate 16:9 • Clean", "16:9",
   "Clean lower-thirds, logo bug, subtle transitions.",
   [("font", .str "Inter Medium"), ("color", .str "#22d3ee"),
    ("lower_third", .bool true)]⟩

def event_11_pop : Template :=
  ⟨"event-11-pop", "Event Montage 1:1 • Pop", "1:1",
   "Square montage with beat-matched cuts and stickers.",
   [("font", .str "Inter Black"), ("color", .str "#f59e0b"),
    ("stickers", .bool true)]⟩

/-- The fixed template catalog `TEMPLATES` of `src/main.py`. -/
def TEMPLATES : List Template := [reel_916_bold, corporate_169_clean, event_11_pop]

/-- `raise HTTPException(status_code=..., detail=...)`. -/
inductive HTTPError where
  | httpException (status_code : Nat) (detail : String)
deriving DecidableEq, Repr

/-- One entry of `files: List[UploadFile]`: the client-supplied filename and
content type (both untrusted and possibly absent) and the byte content (the
net result of the chunked read loop). -/
structure UploadedFile where
  filename : Option String
  content_type : Option String
  content : List Nat
deriving DecidableEq, Repr

/-- One element of the `saved` list returned by `upload_files`. -/
structure SavedEntry where
  original : Option String
  stored_as : String
  url : String
  mime : Option String
deriving DecidableEq, Repr

/-- The response of `upload_files`: `{"count": len(saved), "files": saved}`. -/
structure UploadResponse where
  count : Nat
  files : List SavedEntry
deriving DecidableEq, Repr

/-- The filesystem under `UPLOAD_DIR`, as an append-only list of
(path, bytes) writes. -/
abbrev Storage := List (String × List Nat)

deriving instance DecidableEq for Except

/-- The extension whitelist appearing in `upload_files`. -/
def ALLOWED_EXTS : List String :=
  [".mp4", ".mov", ".mkv", ".webm",
   ".jpg", ".jpeg", ".png", ".gif",
   ".pdf", ".zip", ".wav", ".mp3", ".aac", ".m4a"]

/-- The per-file stored name computed by `upload_files`:
`_, ext = os.path.splitext(f.filename or "")`,
`ext = ext.lower() if ext else ""`,
`safe_ext = ext if ext in [...] else ext`,
`fname = f"<token>{safe_ext}"` with `token = uuid.uuid4().hex`.
Note that the source's whitelist test yields `ext` in both branches. -/
def storedName (tok : String) (f : UploadedFile) : String :=
  let ext := (splitext (f.filename.getD "")).2
  let ext2 := if ext = "" then "" else lowerStr ext
  let safe_ext := if ext2 ∈ ALLOWED_EXTS then ext2 else ext2
  tok ++ safe_ext

/-- The `saved.append({...})` record built for one file. -/
def savedEntry (base tok : String) (f : UploadedFile) : SavedEntry :=
  ⟨f.filename, storedName tok f, base ++ "/uploads/" ++ storedName tok f,
   f.content_type⟩

/-- The filesystem write performed for one file:
`path = os.path.join(UPLOAD_DIR, fname)` and the chunked copy of the bytes. -/
def writtenFile (uploadDir tok : String) (f : UploadedFile) : String × List Nat :=
  (uploadDir ++ "/" ++ storedName tok f, f.content)

/-- `upload_files` of `src/main.py` (`POST /api/upload`), parametrised by the
upload directory, the raw request base url, and the stream of uuid tokens
(one consumed per file, in order).  Returns the response (or the HTTP error)
together with the resulting storage state. -/
def upload_files (uploadDir base_url : String) (tokens : List String)
    (files : List UploadedFile) (σ : Storage) :
    Except HTTPError UploadResponse × Storage :=
  if files.isEmpty then
    (.error (.httpException 400 "No files uploaded"), σ)
  else
    let base := rstripSlashes base_url
    let saved := List.zipWith (savedEntry base) tokens files
    (.ok ⟨saved.length, saved⟩,
     σ ++ List.zipWith (writtenFile uploadDir) tokens files)

/-- The `InstantEditRequest` pydantic model. -/
structure InstantEditRequest where
  template_id : String
  assets : List String
  title : Option String
  subtitle : Option String
  brand_color : Option String
  logo_url : Option String
deriving DecidableEq, Repr

/-- The `InstantEditResponse` pydantic model. -/
structure InstantEditResponse where
  template : Template
  preview_type : String
  preview_url : String
  used_assets : List String
  notes : String
deriving DecidableEq, Repr

def VIDEO_EXTS : List String := [".mp4", ".mov", ".mkv", ".webm"]

def IMAGE_EXTS : List String := [".jpg", ".jpeg", ".png", ".gif"]

/-- `any(l.endswith(e) for e in video_exts)` with `l = url.lower()`. -/
def isVideoRef (url : String) : Bool :=
  VIDEO_EXTS.any (fun e => endswith (lowerStr url) e)

/-- `any(l.endswith(e) for e in image_exts)` with `l = url.lower()`. -/
def isImageRef (url : String) : Bool :=
  IMAGE_EXTS.any (fun e => endswith (lowerStr url) e)

def PLACEHOLDER_URL : String := "https://placehold.co/1280x720?text=Instant+Preview"

def NOTES : String :=
  "Instant edit applied. This preview uses your first uploaded media. In a full pipeline, we would trim, add lower-thirds, color grade, and export in the template's aspect ratio."

/-- The first loop of `instant_edit`, starting from the sentinel state
`preview_url = ""`, `preview_type = "unknown"`: the first asset whose
lower-cased reference ends with a recognized video extension wins (`break`). -/
def videoPass (assets : List String) : String × String :=
  match assets.find? isVideoRef with
  | some url => (url, "video")
  | none => ("", "unknown")

/-- The second loop, guarded by `if not preview_url:` (emptiness test on the
sentinel): the first asset ending with a recognized image extension wins. -/
def imagePass (assets : List String) (r : String × String) : String × String :=
  if r.1 = "" then
    match assets.find? isImageRef with
    | some url => (url, "image")
    | none => r
  else r

/-- The final `if not preview_url:` block substituting the fixed placeholder. -/
def placeholderPass (r : String × String) : String × String :=
  if r.1 = "" then (PLACEHOLDER_URL, "placeholder") else r

/-- The preview selection heuristic of `instant_edit`, returning
`(preview_url, preview_type)`. -/
def selectPreview (assets : List String) : String × String :=
  placeholderPass (imagePass assets (videoPass assets))

/-- `instant_edit` of `src/main.py` (`POST /api/instant-edit`). -/
def instant_edit (req : InstantEditRequest) : Except HTTPError InstantEditResponse :=
  match TEMPLATES.find? (fun t => t.id == req.template_id) with
  | none => .error (.httpException 404 "Template not found")
  | some tpl =>
    if req.assets.isEmpty then
      .error (.httpException 400 "No assets provided")
    else
      let sel := selectPreview req.assets
      .ok ⟨tpl, sel.2, sel.1, req.assets, NOTES⟩

example : splitext "archive.tar.gz" = ("archive.tar", ".gz") := by decide
example : splitext ".bashrc" = (".bashrc", "") := by decide
example : splitext "dir.d/plain" = ("dir.d/plain", "") := by decide
example : splitext "" = ("", "") := by decide
example : storedName "deadbeef" ⟨some "Clip.MP4", none, []⟩ = "deadbeef.mp4" := by decide
example : storedName "deadbeef" ⟨none, none, []⟩ = "deadbeef" := by decide
example : selectPreview ["a.png", "b.mp4"] = ("b.mp4", "video") := by decide
example : selectPreview ["a.png", "b.jpg"] = ("a.png", "image") := by decide
example : selectPreview ["a.pdf"] = (PLACEHOLDER_URL, "placeholder") := by decide

/-! ### Helper lemmas about the Asset Store -/

/-- The lower-cased extension derived from a file's (possibly absent)
original filename. -/
def lowExt (f : UploadedFile) : String := lowerStr (splitext (f.filename.getD "")).2

theorem lowerStr_empty : lowerStr "" = "" := rfl

/-- Because the source's whitelist test returns `ext` in both branches, the
stored name is always the token followed by the lower-cased original
extension, whether or not that extension is in the whitelist. -/
theorem storedName_eq (tok : String) (f : UploadedFile) :
    storedName tok f = tok ++ lowExt f := by
  unfold storedName lowExt
  by_cases hext : (splitext (f.filename.getD "")).2 = ""
  · simp [hext, lowerStr_empty]
  · simp [hext]

theorem string_data_append (a b : String) : (a ++ b).data = a.data ++ b.data := rfl

/-- Two equal concatenations with equal-length left parts have equal left
parts (applied to the 32-character uuid hex tokens of distinct uploads). -/
theorem append_cancel_of_length_eq {a b c d : String}
    (h : a ++ b = c ++ d) (hl : a.length = c.length) : a = c := by
  have hd : a.data ++ b.data = c.data ++ d.data := congrArg String.data h
  exact String.ext (List.append_inj hd hl).1

theorem mem_zipWith_exists {α β γ : Type _} {g : α → β → γ} :
    ∀ {as : List α} {bs : List β} {y : γ}, y ∈ List.zipWith g as bs →
      ∃ a ∈ as, ∃ b ∈ bs, y = g a b := by
  intro as
  induction as with
  | nil =>
    intro bs y h
    simp [List.zipWith] at h
  | cons a as ih =>
    intro bs y h
    cases bs with
    | nil => simp [List.zipWith] at h
    | cons b bs =>
      rw [List.zipWith_cons_cons] at h
      rcases List.mem_cons.mp h with h | h
      · exact ⟨a, List.mem_cons_self _ _, b, List.mem_cons_self _ _, h⟩
      · obtain ⟨a2, ha2, b2, hb2, hy⟩ := ih h
        exact ⟨a2, List.mem_cons_of_mem _ ha2, b2, List.mem_cons_of_mem _ hb2, hy⟩

/-- Distinct equal-length tokens give pairwise distinct stored names. -/
theorem storedNames_nodup : ∀ (tokens : List String) (files : List UploadedFile),
    tokens.Nodup → (∀ t ∈ tokens, t.length = 32) →
    (List.zipWith (fun t f => storedName t f) tokens files).Nodup := by
  intro tokens
  induction tokens with
  | nil =>
    intro files _ _
    simp
  | cons t ts ih =>
    intro files hnd h32
    cases files with
    | nil => simp
    | cons f fs =>
      rw [List.zipWith_cons_cons, List.nodup_cons]
      rw [List.nodup_cons] at hnd
      constructor
      · intro hmem
        obtain ⟨t2, ht2, f2, _, heq⟩ := mem_zipWith_exists hmem
        rw [storedName_eq, storedName_eq] at heq
        have hlen : t.length = t2.length := by
          rw [h32 t (List.mem_cons_self _ _), h32 t2 (List.mem_cons_of_mem _ ht2)]
        have : t = t2 := append_cancel_of_length_eq heq hlen
        exact hnd.1 (this ▸ ht2)
      · exact ih fs hnd.2 (fun u hu => h32 u (List.mem_cons_of_mem _ hu))

/-- Each saved entry's stored name is its token followed by the lower-cased
extension of the corresponding original filename. -/
theorem savedEntries_stored_as (base : String) :
    ∀ (tokens : List String) (files : List UploadedFile),
      List.Forall₂ (fun (e : SavedEntry) (tf : String × UploadedFile) =>
          e.stored_as = tf.1 ++ lowExt tf.2)
        (List.zipWith (savedEntry base) tokens files) (tokens.zip files) := by
  intro tokens
  induction tokens with
  | nil =>
    intro files
    exact List.Forall₂.nil
  | cons t ts ih =>
    intro files
    cases files with
    | nil => exact List.Forall₂.nil
    | cons f fs =>
      rw [List.zipWith_cons_cons, List.zip_cons_cons]
      exact List.Forall₂.cons (storedName_eq t f) (ih fs)

/-! ### Claims about the Asset Store -/

/-- Claim C8: `upload_files` on an empty file sequence fails with the 400
"No files uploaded" validation error and leaves the storage state unchanged
(no file is written). -/
theorem upload_files_empty (uploadDir base_url : String) (tokens : List String)
    (σ : Storage) :
    upload_files uploadDir base_url tokens [] σ =
      (.error (.httpException 400 "No files uploaded"), σ) := rfl

/-- Claim C3: uploading N files (with N fresh, pairwise distinct 32-character
uuid tokens) yields a count of exactly N and N per-file entries; all stored
names are pairwise distinct; and each stored name is its token followed by
the lower-cased extension of the corresponding original filename (empty when
the filename has no extension or is absent). -/
theorem upload_files_batch (uploadDir base_url : String) (tokens : List String)
    (files : List UploadedFile) (σ : Storage)
    (hne : files ≠ []) (hlen : tokens.length = files.length)
    (hnd : tokens.Nodup) (h32 : ∀ t ∈ tokens, t.length = 32) :
    (upload_files uploadDir base_url tokens files σ).1 =
      .ok ⟨files.length, List.zipWith (savedEntry (rstripSlashes base_url)) tokens files⟩ ∧
    (List.zipWith (savedEntry (rstripSlashes base_url)) tokens files).length = files.length ∧
    ((List.zipWith (savedEntry (rstripSlashes base_url)) tokens files).map
        SavedEntry.stored_as).Nodup ∧
    List.Forall₂ (fun (e : SavedEntry) (tf : String × UploadedFile) =>
        e.stored_as = tf.1 ++ lowExt tf.2)
      (List.zipWith (savedEntry (rstripSlashes base_url)) tokens files)
      (tokens.zip files) := by
  have hE : files.isEmpty = false := by
    cases hh : files with
    | nil => exact absurd hh hne
    | cons a l => rfl
  have hlen2 : (List.zipWith (savedEntry (rstripSlashes base_url)) tokens files).length =
      files.length := by
    rw [List.length_zipWith, hlen, min_self]
  refine ⟨?_, hlen2, ?_, savedEntries_stored_as _ tokens files⟩
  · simp [upload_files, hE, hlen2]
  · rw [List.map_zipWith]
    exact storedNames_nodup tokens files hnd h32

theorem upload_files_batch_witness :
    (upload_files "uploads" "http://h/"
        ["0123456789abcdef0123456789abcdef", "fedcba9876543210fedcba9876543210"]
        [⟨some "Clip.MP4", some "video/mp4", [0, 1]⟩, ⟨none, none, []⟩] []).1 =
      .ok ⟨([⟨some "Clip.MP4", some "video/mp4", [0, 1]⟩, ⟨none, none, []⟩] :
              List UploadedFile).length,
           List.zipWith (savedEntry (rstripSlashes "http://h/"))
             ["0123456789abcdef0123456789abcdef", "fedcba9876543210fedcba9876543210"]
             [⟨some "Clip.MP4", some "video/mp4", [0, 1]⟩, ⟨none, none, []⟩]⟩ ∧
    (List.zipWith (savedEntry (rstripSlashes "http://h/"))
        ["0123456789abcdef0123456789abcdef", "fedcba9876543210fedcba9876543210"]
        [⟨some "Clip.MP4", some "video/mp4", [0, 1]⟩, ⟨none, none, []⟩]).length =
      ([⟨some "Clip.MP4", some "video/mp4", [0, 1]⟩, ⟨none, none, []⟩] :
          List UploadedFile).length ∧
    ((List.zipWith (savedEntry (rstripSlashes "http://h/"))
        ["0123456789abcdef0123456789abcdef", "fedcba9876543210fedcba9876543210"]
        [⟨some "Clip.MP4", some "video/mp4", [0, 1]⟩, ⟨none, none, []⟩]).map
        SavedEntry.stored_as).Nodup ∧
    List.Forall₂ (fun (e : SavedEntry) (tf : String × UploadedFile) =>
        e.stored_as = tf.1 ++ lowExt tf.2)
      (List.zipWith (savedEntry (rstripSlashes "http://h/"))
        ["0123456789abcdef0123456789abcdef", "fedcba9876543210fedcba9876543210"]
        [⟨some "Clip.MP4", some "video/mp4", [0, 1]⟩, ⟨none, none, []⟩])
      (["0123456789abcdef0123456789abcdef", "fedcba9876543210fedcba9876543210"].zip
        [⟨some "Clip.MP4", some "video/mp4", [0, 1]⟩, ⟨none, none, []⟩]) :=
  upload_files_batch "uploads" "http://h/"
    ["0123456789abcdef0123456789abcdef", "fedcba9876543210fedcba9876543210"]
    [⟨some "Clip.MP4", some "video/mp4", [0, 1]⟩, ⟨none, none, []⟩] []
    (by decide) (by decide) (by decide) (by decide)

/-- Claim C2 (the code does not do what the claim and the source's own
whitelist intend): the original filename never reaches the storage path —
only the extracted extension does — but that extension is NOT restricted
before being appended: `safe_ext = ext if ext in [...] else ext` yields the
raw lower-cased extension in both branches.  Evaluating `upload_files` on a
file named "payload.s;h": the extension ".s;h" fails the whitelist, yet the
stored name and storage path end in the unrestricted ".s;h". -/
theorem upload_files_extension_unrestricted :
    ALLOWED_EXTS.contains ".s;h" = false ∧
    (upload_files "uploads" "http://h" ["0123456789abcdef0123456789abcdef"]
        [⟨some "payload.s;h", some "text/plain", [7]⟩] []).1 =
      .ok ⟨1, [⟨some "payload.s;h", "0123456789abcdef0123456789abcdef.s;h",
                "http://h/uploads/0123456789abcdef0123456789abcdef.s;h",
                some "text/plain"⟩]⟩ ∧
    (upload_files "uploads" "http://h" ["0123456789abcdef0123456789abcdef"]
        [⟨some "payload.s;h", some "text/plain", [7]⟩] []).2 =
      [("uploads/0123456789abcdef0123456789abcdef.s;h", [7])] :=
  ⟨by decide, by decide, by decide⟩

/-! ### Helper lemmas about the preview selection -/

theorem isVideoRef_empty : isVideoRef "" = false := by decide

theorem isImageRef_empty : isImageRef "" = false := by decide

/-- A reference matched by the video pass is non-empty (it carries a
non-empty extension as a suffix), so the `""` sentinel test is conclusive. -/
theorem videoRef_ne_empty {u : String} (h : isVideoRef u = true) : u ≠ "" := by
  intro he
  subst he
  exact absurd h (by decide)

theorem imageRef_ne_empty {u : String} (h : isImageRef u = true) : u ≠ "" := by
  intro he
  subst he
  exact absurd h (by decide)

theorem selectPreview_video {assets : List String} {u : String}
    (h : assets.find? isVideoRef = some u) :
    selectPreview assets = (u, "video") := by
  have hu : isVideoRef u = true := List.find?_some h
  have hne : u ≠ "" := videoRef_ne_empty hu
  simp [selectPreview, videoPass, imagePass, placeholderPass, h, hne]

theorem selectPreview_image {assets : List String} {u : String}
    (hv : assets.find? isVideoRef = none)
    (hi : assets.find? isImageRef = some u) :
    selectPreview assets = (u, "image") := by
  have hu : isImageRef u = true := List.find?_some hi
  have hne : u ≠ "" := imageRef_ne_empty hu
  simp [selectPreview, videoPass, imagePass, placeholderPass, hv, hi, hne]

theorem selectPreview_placeholder {assets : List String}
    (hv : assets.find? isVideoRef = none)
    (hi : assets.find? isImageRef = none) :
    selectPreview assets = (PLACEHOLDER_URL, "placeholder") := by
  simp [selectPreview, videoPass, imagePass, placeholderPass, hv, hi]

/-- When the template resolves and the asset list is non-empty,
`instant_edit` succeeds and its preview fields come from `selectPreview`. -/
theorem instant_edit_eq_ok {req : InstantEditRequest} {tpl : Template}
    (ht : TEMPLATES.find? (fun t => t.id == req.template_id) = some tpl)
    (hne : req.assets ≠ []) :
    instant_edit req =
      .ok ⟨tpl, (selectPreview req.assets).2, (selectPreview req.assets).1,
           req.assets, NOTES⟩ := by
  have he : req.assets.isEmpty = false := by
    cases hh : req.assets with
    | nil => exact absurd hh hne
    | cons a l => rfl
  simp [instant_edit, ht, he]

/-- Inversion: a successful `instant_edit` call resolved the template, had a
non-empty asset list, and built its response from `selectPreview`. -/
theorem instant_edit_ok_inv {req : InstantEditRequest} {resp : InstantEditResponse}
    (h : instant_edit req = .ok resp) :
    ∃ tpl, TEMPLATES.find? (fun t => t.id == req.template_id) = some tpl ∧
      req.assets ≠ [] ∧
      resp = ⟨tpl, (selectPreview req.assets).2, (selectPreview req.assets).1,
              req.assets, NOTES⟩ := by
  cases hT : TEMPLATES.find? (fun t => t.id == req.template_id) with
  | none => simp [instant_edit, hT] at h
  | some tpl =>
    cases hE : req.assets.isEmpty with
    | true => simp [instant_edit, hT, hE] at h
    | false =>
      refine ⟨tpl, rfl, ?_, ?_⟩
      · intro hh
        rw [hh] at hE
        exact absurd hE (by decide)
      · have := instant_edit_eq_ok hT (by
          intro hh
          rw [hh] at hE
          exact absurd hE (by decide))
        rw [this] at h
        exact (Except.ok.injEq _ _ ▸ congrArg id h).symm

/-! ### Claims about the Preview Selector -/

/-- Claim C1: for every valid template id and non-empty asset list, if at
least one asset reference's lower-cased form ends with one of
`.mp4/.mov/.mkv/.webm`, `instant_edit` returns the first such reference (in
input order, i.e. the one `find?` yields) classified "video", even when a
reference with an image extension occurs earlier in the list. -/
theorem instant_edit_video_precedence (req : InstantEditRequest) (tpl : Template)
    (ht : TEMPLATES.find? (fun t => t.id == req.template_id) = some tpl)
    (u : String) (hu : req.assets.find? isVideoRef = some u) :
    instant_edit req = .ok ⟨tpl, "video", u, req.assets, NOTES⟩ := by
  have hne : req.assets ≠ [] := by
    intro hh
    rw [hh] at hu
    cases hu
  rw [instant_edit_eq_ok ht hne, selectPreview_video hu]

theorem instant_edit_video_precedence_witness :
    instant_edit ⟨"reel-916-bold", ["a.png", "b.mp4"], none, none, none, none⟩ =
      .ok ⟨reel_916_bold, "video", "b.mp4", ["a.png", "b.mp4"], NOTES⟩ :=
  instant_edit_video_precedence _ _ (by decide) "b.mp4" (by decide)

/-- Claim C4: whenever the template id matches no catalog entry
(case-sensitive, exact), `instant_edit` fails with the 404 "Template not
found" error, whatever the asset list — also when it is empty, so the
not-found error takes precedence over the empty-assets validation error. -/
theorem instant_edit_unknown_template (req : InstantEditRequest)
    (h : ∀ t ∈ TEMPLATES, t.id ≠ req.template_id) :
    instant_edit req = .error (.httpException 404 "Template not found") := by
  have hf : TEMPLATES.find? (fun t => t.id == req.template_id) = none := by
    rw [List.find?_eq_none]
    intro t htm hbeq
    exact h t htm (eq_of_beq hbeq)
  simp [instant_edit, hf]

theorem instant_edit_unknown_template_witness :
    instant_edit ⟨"REEL-916-BOLD", [], none, none, none, none⟩ =
      .error (.httpException 404 "Template not found") :=
  instant_edit_unknown_template _ (by decide)

/-- Claim C5: for every valid template id and asset list where no reference's
lower-cased form ends with a recognized video extension but at least one ends
with one of `.jpg/.jpeg/.png/.gif`, `instant_edit` returns the first such
reference in input order classified "image". -/
theorem instant_edit_image_second_pass (req : InstantEditRequest) (tpl : Template)
    (ht : TEMPLATES.find? (fun t => t.id == req.template_id) = some tpl)
    (hv : ∀ a ∈ req.assets, isVideoRef a = false)
    (u : String) (hu : req.assets.find? isImageRef = some u) :
    instant_edit req = .ok ⟨tpl, "image", u, req.assets, NOTES⟩ := by
  have hvn : req.assets.find? isVideoRef = none := by
    rw [List.find?_eq_none]
    intro a ha
    simp [hv a ha]
  have hne : req.assets ≠ [] := by
    intro hh
    rw [hh] at hu
    cases hu
  rw [instant_edit_eq_ok ht hne, selectPreview_image hvn hu]

theorem instant_edit_image_second_pass_witness :
    instant_edit ⟨"corporate-169-clean", ["a.png", "b.jpg"], none, none, none, none⟩ =
      .ok ⟨corporate_169_clean, "image", "a.png", ["a.png", "b.jpg"], NOTES⟩ :=
  instant_edit_image_second_pass _ _ (by decide) (by decide) "a.png" (by decide)

/-- Claim C6: for every valid template id and non-empty asset list in which
no reference's lower-cased form ends with a recognized video or image
extension, `instant_edit` classifies the result "placeholder" and returns the
fixed placeholder reference `PLACEHOLDER_URL`, a constant independent of the
input asset list (not drawn from it). -/
theorem instant_edit_placeholder_fallback (req : InstantEditRequest) (tpl : Template)
    (ht : TEMPLATES.find? (fun t => t.id == req.template_id) = some tpl)
    (hne : req.assets ≠ [])
    (h : ∀ a ∈ req.assets, isVideoRef a = false ∧ isImageRef a = false) :
    instant_edit req = .ok ⟨tpl, "placeholder", PLACEHOLDER_URL, req.assets, NOTES⟩ := by
  have hvn : req.assets.find? isVideoRef = none := by
    rw [List.find?_eq_none]
    intro a ha
    simp [(h a ha).1]
  have hin : req.assets.find? isImageRef = none := by
    rw [List.find?_eq_none]
    intro a ha
    simp [(h a ha).2]
  rw [instant_edit_eq_ok ht hne, selectPreview_placeholder hvn hin]

theorem instant_edit_placeholder_fallback_witness :
    instant_edit ⟨"event-11-pop", ["a.pdf"], none, none, none, none⟩ =
      .ok ⟨event_11_pop, "placeholder", PLACEHOLDER_URL, ["a.pdf"], NOTES⟩ :=
  instant_edit_placeholder_fallback _ _ (by decide) (by decide) (by decide)

/-- Claim C7: for every template id that matches a catalog entry, if the
asset list is empty then `instant_edit` fails with the 400 "No assets
provided" validation error. -/
theorem instant_edit_empty_assets (req : InstantEditRequest) (tpl : Template)
    (htpl : tpl ∈ TEMPLATES) (hid : tpl.id = req.template_id)
    (ha : req.assets = []) :
    instant_edit req = .error (.httpException 400 "No assets provided") := by
  have hsome : (TEMPLATES.find? (fun t => t.id == req.template_id)).isSome = true := by
    rw [List.find?_isSome]
    exact ⟨tpl, htpl, beq_iff_eq.mpr hid⟩
  obtain ⟨tpl2, ht2⟩ := Option.isSome_iff_exists.mp hsome
  simp [instant_edit, ht2, ha]

theorem instant_edit_empty_assets_witness :
    instant_edit ⟨"reel-916-bold", [], none, none, none, none⟩ =
      .error (.httpException 400 "No assets provided") :=
  instant_edit_empty_assets _ reel_916_bold (by decide) (by decide) rfl

/-- Claim C9: classification is purely suffix-based on the lower-cased
reference string.  Any reference whose lower-cased form does not literally
end with a recognized extension (for example `.../video.mp4?x=1`, whose
suffix is `?x=1`) is skipped by both the video and the image pass, and hence
never determines the preview: if a successful call returns it as the preview
url, that can only be the placeholder branch returning the fixed constant. -/
theorem instant_edit_suffix_only (r : String)
    (h1 : isVideoRef r = false) (h2 : isImageRef r = false) :
    (∀ assets : List String,
        assets.find? isVideoRef ≠ some r ∧ assets.find? isImageRef ≠ some r) ∧
    (∀ (req : InstantEditRequest) (resp : InstantEditResponse),
        instant_edit req = .ok resp → resp.preview_url = r →
        resp.preview_type = "placeholder" ∧ r = PLACEHOLDER_URL) := by
  constructor
  · intro assets
    constructor
    · intro hc
      have := List.find?_some hc
      rw [h1] at this
      cases this
    · intro hc
      have := List.find?_some hc
      rw [h2] at this
      cases this
  · intro req resp hok hurl
    obtain ⟨tpl, _, hne, hresp⟩ := instant_edit_ok_inv hok
    subst hresp
    cases hv : req.assets.find? isVideoRef with
    | some u =>
      rw [selectPreview_video hv] at hurl ⊢
      have := List.find?_some hv
      rw [show u = r from hurl, h1] at this
      cases this
    | none =>
      cases hi : req.assets.find? isImageRef with
      | some u =>
        rw [selectPreview_image hv hi] at hurl ⊢
        have := List.find?_some hi
        rw [show u = r from hurl, h2] at this
        cases this
      | none =>
        rw [selectPreview_placeholder hv hi] at hurl ⊢
        exact ⟨rfl, hurl.symm⟩

theorem instant_edit_suffix_only_witness :
    isVideoRef "https://cdn.example/video.mp4?x=1" = false ∧
    (["https://cdn.example/video.mp4?x=1"].find? isVideoRef ≠
        some "https://cdn.example/video.mp4?x=1" ∧
     ["https://cdn.example/video.mp4?x=1"].find? isImageRef ≠
        some "https://cdn.example/video.mp4?x=1") :=
  ⟨by decide,
   (instant_edit_suffix_only "https://cdn.example/video.mp4?x=1"
      (by decide) (by decide)).1 ["https://cdn.example/video.mp4?x=1"]⟩

/-- Claim C10: every successful `instant_edit` call returns a classification
among "video", "image" and "placeholder"; the initial sentinel "unknown" is
never returned, because a reference matched by either pass is non-empty, so
the empty-string sentinel test detects a match correctly. -/
theorem instant_edit_type_invariant (req : InstantEditRequest)
    (resp : InstantEditResponse) (h : instant_edit req = .ok resp) :
    resp.preview_type = "video" ∨ resp.preview_type = "image" ∨
      resp.preview_type = "placeholder" := by
  obtain ⟨tpl, _, hne, hresp⟩ := instant_edit_ok_inv h
  subst hresp
  cases hv : req.assets.find? isVideoRef with
  | some u =>
    rw [selectPreview_video hv]
    exact Or.inl rfl
  | none =>
    cases hi : req.assets.find? isImageRef with
    | some u =>
      rw [selectPreview_image hv hi]
      exact Or.inr (Or.inl rfl)
    | none =>
      rw [selectPreview_placeholder hv hi]
      exact Or.inr (Or.inr rfl)

theorem instant_edit_type_invariant_witness :
    instant_edit ⟨"event-11-pop", ["x.webm"], none, none, none, none⟩ =
      .ok ⟨event_11_pop, "video", "x.webm", ["x.webm"], NOTES⟩ ∧
    (("video" : String) = "video" ∨ ("video" : String) = "image" ∨
      ("video" : String) = "placeholder") :=
  ⟨by decide,
   instant_edit_type_invariant ⟨"event-11-pop", ["x.webm"], none, none, none, none⟩
     ⟨event_11_pop, "video", "x.webm", ["x.webm"], NOTES⟩ (by decide)⟩
